import Mathlib

/-!
Shallow embedding of `yt-jelly-meta.py` (Tube-Archivist-Jellyfin-Title-Updater).

The program is a sequential polling loop:
  * an SQLite ledger `updated_videos (file_path TEXT PRIMARY KEY, video_id TEXT, ...)`
    with operations `already_updated` and `mark_as_updated` (INSERT OR REPLACE);
  * a title resolver `get_youtube_title` that fetches the video page and, when a
    `<title>` tag is found, returns its text with `" - YouTube"` removed via
    Python `str.replace` (which removes every occurrence, left to right);
  * a per-file body (lines 133-194) that skips ledgered paths, resolves the
    title, searches Jellyfin, fetches the item's full record, overwrites its
    `Name`, posts it back, and on a successful post records the file in the
    ledger, bumps the per-cycle counter and, when the record has a truthy
    `ParentId`, requests a library refresh.

Network I/O is modelled by an oracle (`FileEnv`) giving the outcome of each
call the body can make, in call order; the calls actually issued are returned
as an `Effect` trace.  Python exceptions raised inside the per-file `try`
block are modelled as `Except.error` results of `tryBodyRaw`; the `except`
handler in `processFile` turns them into "log and continue".  No mutation of
the ledger or the counter precedes any raising point in the source, so a
caught exception leaves the entry state unchanged, as `processFile` does.
-/

set_option autoImplicit false

/-- JSON-ish values appearing in Jellyfin API payloads. -/
inductive JVal where
  | null
  | bool (b : Bool)
  | num (n : Int)
  | str (s : String)
  | arr (elems : List JVal)
  | obj (fields : List (String × JVal))

/-- Python truthiness of a JSON value (`if parent_id:`, `if not item_data:`). -/
def truthy : JVal → Bool
  | .null => false
  | .bool b => b
  | .num n => n != 0
  | .str s => s != ""
  | .arr l => !l.isEmpty
  | .obj l => !l.isEmpty

/-- Python truthiness of `dict.get`'s result (`None` when the key is absent). -/
def truthyOpt : Option JVal → Bool
  | none => false
  | some v => truthy v

/-- A JSON object / Python dict, as an association list of its fields. -/
abbrev Json := List (String × JVal)

/-- First-match association lookup (`d[k]` / `d.get(k)` on a dict). -/
def assocGet {β : Type} : List (String × β) → String → Option β
  | [], _ => none
  | (k', v) :: rest, k => if k' = k then some v else assocGet rest k

/-- Python dict assignment `d[k] = v`: replace the binding in place when the
key is present, otherwise append it (insertion order is preserved). -/
def dictSet : Json → String → JVal → Json
  | [], k, v => [(k, v)]
  | (k', v') :: rest, k, v =>
    if k' = k then (k, v) :: rest else (k', v') :: dictSet rest k v

/-- Does `pat` start the list `s`?  (The match attempt Python `str.replace`
makes at each scan position.) -/
def startsWithB : List Char → List Char → Bool
  | [], _ => true
  | _ :: _, [] => false
  | p :: ps, c :: cs => p == c && startsWithB ps cs

/-- Does `pat` occur somewhere in `s`? -/
def containsSub (pat : List Char) : List Char → Bool
  | [] => pat.isEmpty
  | c :: rest => startsWithB pat (c :: rest) || containsSub pat rest

/-- Fuelled scan of Python `str.replace` for a nonempty pattern: at each
position, if the pattern starts there emit the replacement and skip past the
occurrence, otherwise emit the character; occurrences are consumed left to
right without rescanning the replacement.  Every step consumes at least one
character, so fuel `s.length` never runs out (the `0, s` arm is unreachable
from `replaceAll`). -/
def replaceAllFuel (pat rep : List Char) : Nat → List Char → List Char
  | _, [] => []
  | 0, s => s
  | fuel + 1, c :: rest =>
    if !pat.isEmpty && startsWithB pat (c :: rest) then
      rep ++ replaceAllFuel pat rep fuel ((c :: rest).drop pat.length)
    else
      c :: replaceAllFuel pat rep fuel rest

/-- Python `s.replace(pat, rep)` for nonempty `pat`, on character lists. -/
def replaceAll (pat rep s : List Char) : List Char :=
  replaceAllFuel pat rep s.length s

/-- Python `s.replace(old, new)` for nonempty `old`, on strings. -/
def pyReplace (s old new : String) : String :=
  String.mk (replaceAll old.data new.data s.data)

/-- `get_youtube_title(video_id)` (lines 92-100), as a function of the page
fetch's outcome: `.error` = `requests.get`/`raise_for_status` raised;
`.ok none` = page fetched but no `<title>` tag (the function returns `None`);
`.ok (some t)` = `<title>` tag found with text `t`, in which case the function
returns `t.replace(" - YouTube", "")`. -/
def get_youtube_title (page : Except Unit (Option String)) :
    Except Unit (Option String) :=
  match page with
  | .error e => .error e
  | .ok none => .ok none
  | .ok (some t) => .ok (some (pyReplace t " - YouTube" ""))

/-- `os.path.basename` for POSIX paths: the part after the last `/`. -/
def basenameOf (p : String) : String :=
  String.mk ((p.data.reverse.takeWhile (fun c => c != '/')).reverse)

/-- The root part of Python `os.path.splitext`: cut at the last `.`, except
that the leading dots of the name never start an extension. -/
def splitextRoot (b : String) : String :=
  let cs := b.data
  let lead := cs.takeWhile (fun c => c = '.')
  let rest := cs.dropWhile (fun c => c = '.')
  if rest.contains '.' then
    String.mk (lead ++ (((rest.reverse.dropWhile (fun c => c != '.')).drop 1).reverse))
  else b

/-- `video_id = os.path.splitext(os.path.basename(file_path))[0]` (line 134). -/
def videoIdOf (p : String) : String :=
  splitextRoot (basenameOf p)

/-- One row of `updated_videos` is `(file_path, video_id)`; `file_path` is the
PRIMARY KEY.  The `updated_at` timestamp column is not modelled. -/
abbrev Ledger := List (String × String)

/-- `already_updated(file_path)` (lines 109-111):
`SELECT 1 FROM updated_videos WHERE file_path=?` found a row. -/
def already_updated (l : Ledger) (fp : String) : Bool :=
  (assocGet l fp).isSome

/-- `mark_as_updated(file_path, video_id)` (lines 113-118):
`INSERT OR REPLACE` keyed on the `file_path` PRIMARY KEY — replace the
existing row when present, insert a fresh row otherwise. -/
def mark_as_updated : Ledger → String → String → Ledger
  | [], fp, vid => [(fp, vid)]
  | (p, v) :: rest, fp, vid =>
    if p = fp then (fp, vid) :: rest else (p, v) :: mark_as_updated rest fp vid

/-- The mutable state the loop body touches: the ledger and the per-cycle
counter `files_processed`. -/
structure LoopState where
  ledger : Ledger
  filesProcessed : Nat

/-- Network calls the per-file body can issue, with their arguments. -/
inductive Effect where
  | fetchTitle (videoId : String)
  | searchItems (videoId : String)
  | fetchItem (itemId : JVal)
  | postItem (itemId : JVal) (body : Json)
  | postRefresh (parentId : JVal)

/-- Oracle for the outcomes of the network calls one file's processing can
make, in the order the body makes them. -/
structure FileEnv where
  /-- Outcome of the YouTube page fetch inside `get_youtube_title`. -/
  page : Except Unit (Option String)
  /-- `client.get(f"Users/{user_id}/Items", ...)`: `none` = request failed
  (`client.get` returned `None`, so `items = []`); `some none` = JSON without
  an `"Items"` key (`.get("Items", [])` gives `[]`); `some (some l)` = JSON
  whose `"Items"` value is the list `l`. -/
  searchResp : Option (Option (List JVal))
  /-- `client.get(f"Items/{item_id}")`: `none` = failed, `some d` = the JSON
  record `d` (an empty `d` is falsy and is skipped like a failure). -/
  itemResp : Option Json
  /-- `client.post(f"Items/{item_id}", ...)`: `none` = transport error
  (`None`), `some b` = a response with `ok = b`. -/
  postOk : Option Bool
  /-- `client.post(f"Library/Refresh", ...)`: same shape; the source only
  logs this outcome, so it never affects state or control flow. -/
  refreshOk : Option Bool

/-- `items = search_results.get("Items", []) if search_results else []`
(line 158): a failed request and a JSON without an `"Items"` key both yield
the empty list. -/
def itemsOf : Option (Option (List JVal)) → List JVal
  | none => []
  | some none => []
  | some (some l) => l

/-- The body of the per-file `try` block (lines 142-191), before the `except`
handler is applied: `.error` marks a raised exception (page fetch raised, or
`item['Id']` / `item['Name']` raised on the first search hit).  Returns the
state at exit and the trace of network calls issued.  No ledger/counter
mutation precedes any raising point in the source, so the state at a raise is
the entry state. -/
def tryBodyRaw (env : FileEnv) (st : LoopState) (fp vid : String) :
    Except Unit LoopState × List Effect :=
  match get_youtube_title env.page with
  | .error _ => (.error (), [.fetchTitle vid])
  | .ok none => (.ok st, [.fetchTitle vid])
  | .ok (some t) =>
    if t = "" then (.ok st, [.fetchTitle vid])
    else
      match itemsOf env.searchResp with
      | [] => (.ok st, [.fetchTitle vid, .searchItems vid])
      | item :: _ =>
        match item with
        | .obj o =>
          match assocGet o "Id" with
          | none => (.error (), [.fetchTitle vid, .searchItems vid])
          | some item_id =>
            match assocGet o "Name" with
            | none => (.error (), [.fetchTitle vid, .searchItems vid])
            | some _current_name =>
              match env.itemResp with
              | none =>
                (.ok st, [.fetchTitle vid, .searchItems vid, .fetchItem item_id])
              | some item_data =>
                if item_data.isEmpty then
                  (.ok st, [.fetchTitle vid, .searchItems vid, .fetchItem item_id])
                else
                  match env.postOk with
                  | some true =>
                    match assocGet (dictSet item_data "Name" (JVal.str t)) "ParentId" with
                    | some pv =>
                      if truthy pv then
                        (.ok ⟨mark_as_updated st.ledger fp vid, st.filesProcessed + 1⟩,
                         [.fetchTitle vid, .searchItems vid, .fetchItem item_id,
                          .postItem item_id (dictSet item_data "Name" (JVal.str t)),
                          .postRefresh pv])
                      else
                        (.ok ⟨mark_as_updated st.ledger fp vid, st.filesProcessed + 1⟩,
                         [.fetchTitle vid, .searchItems vid, .fetchItem item_id,
                          .postItem item_id (dictSet item_data "Name" (JVal.str t))])
                    | none =>
                      (.ok ⟨mark_as_updated st.ledger fp vid, st.filesProcessed + 1⟩,
                       [.fetchTitle vid, .searchItems vid, .fetchItem item_id,
                        .postItem item_id (dictSet item_data "Name" (JVal.str t))])
                  | _ =>
                    (.ok st, [.fetchTitle vid, .searchItems vid, .fetchItem item_id,
                              .postItem item_id (dictSet item_data "Name" (JVal.str t))])
        | _ => (.error (), [.fetchTitle vid, .searchItems vid])

/-- One iteration of the `for file_path in scan_for_mp4(...)` loop body
(lines 133-194): derive the id, skip ledgered paths before any network work,
otherwise run the `try` body; the `except Exception` handler logs and
continues, leaving the state as it stood. -/
def processFile (env : FileEnv) (st : LoopState) (fp : String) :
    LoopState × List Effect :=
  if already_updated st.ledger fp then (st, [])
  else
    match tryBodyRaw env st fp (videoIdOf fp) with
    | (.ok st', effs) => (st', effs)
    | (.error _, effs) => (st, effs)

/-- One scan cycle over the sequence of files `scan_for_mp4` yields, threading
the state and concatenating the call traces. -/
def scanCycle (envs : String → FileEnv) (st : LoopState) :
    List String → LoopState × List Effect
  | [] => (st, [])
  | f :: rest =>
    ((scanCycle envs (processFile (envs f) st f).1 rest).1,
     (processFile (envs f) st f).2 ++ (scanCycle envs (processFile (envs f) st f).1 rest).2)

/-- The spec's reading of the suffix handling, stated in its own words: strip
one trailing occurrence of `" - YouTube"` and leave everything else unchanged.
Written to be compared with `get_youtube_title`, which embeds the source. -/
def stripTrailingSuffixSpec (t : String) : String :=
  if startsWithB " - YouTube".data.reverse t.data.reverse then
    String.mk (t.data.take (t.data.length - " - YouTube".data.length))
  else t

/-- Keys of a ledger are pairwise distinct: the PRIMARY KEY invariant. -/
def nodupKeys (l : Ledger) : Prop :=
  (l.map Prod.fst).Nodup

/-! ### Helper lemmas -/

theorem assocGet_dictSet_ne (d : Json) (k k' : String) (v : JVal)
    (h : k' ≠ k) : assocGet (dictSet d k v) k' = assocGet d k' := by
  induction d with
  | nil =>
    simp only [dictSet, assocGet]
    rw [if_neg]
    intro hk
    exact h hk.symm
  | cons p rest ih =>
    obtain ⟨k0, v0⟩ := p
    simp only [dictSet]
    by_cases hk0 : k0 = k
    · subst hk0
      simp only [assocGet]
      rw [if_neg (fun hk => h hk.symm), if_neg (fun hk => h hk.symm)]
    · rw [if_neg hk0]
      simp only [assocGet]
      by_cases hk0' : k0 = k'
      · rw [if_pos hk0', if_pos hk0']
      · rw [if_neg hk0', if_neg hk0', ih]

theorem tryBodyRaw_fst_cases (env : FileEnv) (st : LoopState) (fp vid : String) :
    (tryBodyRaw env st fp vid).1 = .ok st ∨
    (tryBodyRaw env st fp vid).1 = .error () ∨
    (env.postOk = some true ∧
     (tryBodyRaw env st fp vid).1 =
       .ok ⟨mark_as_updated st.ledger fp vid, st.filesProcessed + 1⟩) := by
  unfold tryBodyRaw
  repeat' split
  all_goals simp_all

theorem processFile_fst_cases (env : FileEnv) (st : LoopState) (fp : String) :
    (processFile env st fp).1 = st ∨
    (env.postOk = some true ∧
     (processFile env st fp).1 =
       ⟨mark_as_updated st.ledger fp (videoIdOf fp), st.filesProcessed + 1⟩) := by
  unfold processFile
  split
  · exact Or.inl rfl
  · rcases tryBodyRaw_fst_cases env st fp (videoIdOf fp) with h | h | ⟨hp, h⟩ <;>
      rcases he : tryBodyRaw env st fp (videoIdOf fp) with ⟨st1, effs⟩ <;>
      rw [he] at h <;> simp_all

/-! ### Claims -/

/-- C1: a file path with a ledger entry is skipped by the loop before any
network work: when `already_updated` holds, the iteration changes nothing and
issues no title fetch and no media-server call. -/
theorem c1_ledgered_path_skipped (env : FileEnv) (st : LoopState) (fp : String)
    (h : already_updated st.ledger fp = true) :
    processFile env st fp = (st, []) := by
  unfold processFile
  rw [if_pos h]

theorem c1_witness :
    already_updated [("/m/a.mp4", "a")] "/m/a.mp4" = true ∧
    processFile ⟨Except.error (), none, none, none, none⟩
        ⟨[("/m/a.mp4", "a")], 0⟩ "/m/a.mp4" = (⟨[("/m/a.mp4", "a")], 0⟩, []) :=
  ⟨by decide,
   c1_ledgered_path_skipped ⟨Except.error (), none, none, none, none⟩
     ⟨[("/m/a.mp4", "a")], 0⟩ "/m/a.mp4" (by decide)⟩

/-- C4: when the metadata post fails (`None` response or `ok = false`), the
iteration leaves the whole loop state — ledger and per-cycle counter —
unchanged, so the file stays eligible for the next cycle. -/
theorem c4_write_failure_leaves_state (env : FileEnv) (st : LoopState)
    (fp : String) (h : env.postOk = none ∨ env.postOk = some false) :
    (processFile env st fp).1 = st := by
  rcases processFile_fst_cases env st fp with h1 | ⟨h2, _⟩
  · exact h1
  · rcases h with h | h <;> rw [h] at h2 <;> cases h2

theorem c4_witness :
    ((⟨Except.ok (some "T - YouTube"),
       some (some [JVal.obj [("Id", JVal.str "42"), ("Name", JVal.str "old")]]),
       some [("Id", JVal.str "42"), ("Name", JVal.str "old")],
       some false, none⟩ : FileEnv).postOk = none ∨
     (⟨Except.ok (some "T - YouTube"),
       some (some [JVal.obj [("Id", JVal.str "42"), ("Name", JVal.str "old")]]),
       some [("Id", JVal.str "42"), ("Name", JVal.str "old")],
       some false, none⟩ : FileEnv).postOk = some false) ∧
    (processFile
       ⟨Except.ok (some "T - YouTube"),
        some (some [JVal.obj [("Id", JVal.str "42"), ("Name", JVal.str "old")]]),
        some [("Id", JVal.str "42"), ("Name", JVal.str "old")],
        some false, none⟩ ⟨[], 0⟩ "/m/v.mp4").1 = ⟨[], 0⟩ :=
  ⟨Or.inr rfl,
   c4_write_failure_leaves_state _ ⟨[], 0⟩ "/m/v.mp4" (Or.inr rfl)⟩

/-- C5: when title resolution fails — the page fetch raised, or the resolver
returned `None` — the file is skipped: the state is unchanged and the only
network call in the trace is the title fetch itself. -/
theorem c5_resolution_failure_skips (env : FileEnv) (st : LoopState)
    (fp : String) (h : env.page = .error () ∨ env.page = .ok none) :
    (processFile env st fp).1 = st ∧
    ∀ e ∈ (processFile env st fp).2, e = Effect.fetchTitle (videoIdOf fp) := by
  have hgy : get_youtube_title env.page = .error () ∨
      get_youtube_title env.page = .ok none := by
    rcases h with h | h <;> rw [h] <;> simp [get_youtube_title]
  unfold processFile
  split
  · exact ⟨rfl, by simp⟩
  · rcases hgy with hgy | hgy <;>
      rcases he : tryBodyRaw env st fp (videoIdOf fp) with ⟨st1, effs⟩ <;>
      unfold tryBodyRaw at he <;> rw [hgy] at he <;>
      obtain ⟨rfl, rfl⟩ := Prod.mk.injEq .. ▸ he <;> simp_all

theorem c5_witness :
    ((⟨Except.ok none, none, none, none, none⟩ : FileEnv).page = Except.error () ∨
     (⟨Except.ok none, none, none, none, none⟩ : FileEnv).page = Except.ok none) ∧
    ((processFile ⟨Except.ok none, none, none, none, none⟩ ⟨[], 0⟩ "/m/v.mp4").1
        = ⟨[], 0⟩ ∧
     ∀ e ∈ (processFile ⟨Except.ok none, none, none, none, none⟩
              ⟨[], 0⟩ "/m/v.mp4").2,
       e = Effect.fetchTitle (videoIdOf "/m/v.mp4")) :=
  ⟨Or.inr rfl,
   c5_resolution_failure_skips _ ⟨[], 0⟩ "/m/v.mp4" (Or.inr rfl)⟩

/-- C8: a `mark_as_updated` write is immediately visible: `already_updated`
returns `true` for the just-written path, for any prior ledger contents. -/
theorem c8_mark_visible_to_already (l : Ledger) (fp vid : String) :
    already_updated (mark_as_updated l fp vid) fp = true := by
  induction l with
  | nil => simp [mark_as_updated, already_updated, assocGet]
  | cons p rest ih =>
    obtain ⟨k0, v0⟩ := p
    simp only [mark_as_updated]
    split
    · simp [already_updated, assocGet]
    · next hne =>
      simpa [already_updated, assocGet, hne] using ih

/-- C10: a found `<title>` whose text becomes empty after suffix removal makes
the resolver return the empty string (not `None`), and the loop treats it as
a resolution failure: state unchanged, no call beyond the title fetch. -/
theorem c10_empty_title_skipped (env : FileEnv) (st : LoopState)
    (fp t : String) (hPage : env.page = Except.ok (some t))
    (hEmpty : pyReplace t " - YouTube" "" = "") :
    get_youtube_title env.page = Except.ok (some "") ∧
    (processFile env st fp).1 = st ∧
    ∀ e ∈ (processFile env st fp).2, e = Effect.fetchTitle (videoIdOf fp) := by
  have hgy : get_youtube_title env.page = Except.ok (some "") := by
    rw [hPage]
    simp [get_youtube_title, hEmpty]
  refine ⟨hgy, ?_⟩
  unfold processFile
  split
  · exact ⟨rfl, by simp⟩
  · rcases he : tryBodyRaw env st fp (videoIdOf fp) with ⟨st1, effs⟩
    unfold tryBodyRaw at he
    rw [hgy] at he
    simp only [if_pos rfl] at he
    obtain ⟨rfl, rfl⟩ := Prod.mk.injEq .. ▸ he
    simp_all

theorem c10_witness :
    (⟨Except.ok (some " - YouTube"), none, none, none, none⟩ : FileEnv).page
        = Except.ok (some " - YouTube") ∧
    pyReplace " - YouTube" " - YouTube" "" = "" ∧
    (get_youtube_title
        (⟨Except.ok (some " - YouTube"), none, none, none, none⟩ : FileEnv).page
        = Except.ok (some "") ∧
     (processFile ⟨Except.ok (some " - YouTube"), none, none, none, none⟩
        ⟨[], 0⟩ "/m/v.mp4").1 = ⟨[], 0⟩ ∧
     ∀ e ∈ (processFile ⟨Except.ok (some " - YouTube"), none, none, none, none⟩
              ⟨[], 0⟩ "/m/v.mp4").2,
       e = Effect.fetchTitle (videoIdOf "/m/v.mp4")) :=
  ⟨rfl, by decide,
   c10_empty_title_skipped _ ⟨[], 0⟩ "/m/v.mp4" " - YouTube" rfl (by decide)⟩

theorem mark_key_mem (l : Ledger) (fp vid x : String)
    (h : x ∈ (mark_as_updated l fp vid).map Prod.fst) :
    x = fp ∨ x ∈ l.map Prod.fst := by
  induction l with
  | nil =>
    simp [mark_as_updated] at h
    exact Or.inl h
  | cons p rest ih =>
    obtain ⟨k0, v0⟩ := p
    simp only [mark_as_updated] at h
    split at h
    · simp only [List.map_cons, List.mem_cons] at h ⊢
      tauto
    · simp only [List.map_cons, List.mem_cons] at h ⊢
      rcases h with h | h
      · tauto
      · rcases ih h with h' | h' <;> tauto

theorem mark_nodup (l : Ledger) (fp vid : String)
    (h : (l.map Prod.fst).Nodup) :
    ((mark_as_updated l fp vid).map Prod.fst).Nodup := by
  induction l with
  | nil => simp [mark_as_updated]
  | cons p rest ih =>
    obtain ⟨k0, v0⟩ := p
    simp only [List.map_cons, List.nodup_cons] at h
    obtain ⟨hnot, hrest⟩ := h
    simp only [mark_as_updated]
    split
    · next heq =>
      subst heq
      simp only [List.map_cons, List.nodup_cons]
      exact ⟨hnot, hrest⟩
    · next hne =>
      simp only [List.map_cons, List.nodup_cons]
      refine ⟨fun hmem => ?_, ih hrest⟩
      rcases mark_key_mem rest fp vid k0 hmem with h' | h'
      · exact hne h'
      · exact hnot h'

theorem mark_length_of_present (l : Ledger) (fp vid : String)
    (h : already_updated l fp = true) :
    (mark_as_updated l fp vid).length = l.length := by
  induction l with
  | nil => simp [already_updated, assocGet] at h
  | cons p rest ih =>
    obtain ⟨k0, v0⟩ := p
    simp only [mark_as_updated]
    split
    · simp
    · next hne =>
      have h' : already_updated rest fp = true := by
        simpa [already_updated, assocGet, hne] using h
      simp [ih h']

/-- C3: the ledger keeps at most one row per file path: `mark_as_updated` on
a present path replaces the row (same length, keys still distinct), never
duplicates a key, and a whole loop iteration preserves key distinctness. -/
theorem c3_primary_key_invariant (env : FileEnv) (st : LoopState)
    (fp vid : String) (l : Ledger)
    (hl : nodupKeys l) (hst : nodupKeys st.ledger) :
    nodupKeys (mark_as_updated l fp vid) ∧
    (already_updated l fp = true →
      (mark_as_updated l fp vid).length = l.length) ∧
    nodupKeys (processFile env st fp).1.ledger := by
  refine ⟨mark_nodup l fp vid hl, fun h => mark_length_of_present l fp vid h, ?_⟩
  rcases processFile_fst_cases env st fp with h | ⟨_, h⟩
  · rw [h]
    exact hst
  · rw [h]
    exact mark_nodup _ _ _ hst

theorem c3_witness :
    nodupKeys [("/m/x.mp4", "x")] ∧ nodupKeys [("/m/a.mp4", "a")] ∧
    (nodupKeys (mark_as_updated [("/m/x.mp4", "x")] "/m/x.mp4" "z") ∧
     (already_updated [("/m/x.mp4", "x")] "/m/x.mp4" = true →
       (mark_as_updated [("/m/x.mp4", "x")] "/m/x.mp4" "z").length
         = [("/m/x.mp4", "x")].length) ∧
     nodupKeys (processFile ⟨Except.error (), none, none, none, none⟩
        ⟨[("/m/a.mp4", "a")], 0⟩ "/m/x.mp4").1.ledger) :=
  ⟨by simp [nodupKeys], by simp [nodupKeys],
   c3_primary_key_invariant ⟨Except.error (), none, none, none, none⟩
     ⟨[("/m/a.mp4", "a")], 0⟩ "/m/x.mp4" "z" [("/m/x.mp4", "x")]
     (by simp [nodupKeys]) (by simp [nodupKeys])⟩

theorem processFile_snd (env : FileEnv) (st : LoopState) (fp : String) :
    (processFile env st fp).2 = [] ∨
    (processFile env st fp).2 = (tryBodyRaw env st fp (videoIdOf fp)).2 := by
  unfold processFile
  split
  · exact Or.inl rfl
  · rcases he : tryBodyRaw env st fp (videoIdOf fp) with ⟨r1, effs⟩
    exact Or.inr (by cases r1 <;> rfl)

theorem tryBodyRaw_postItem_shape (env : FileEnv) (st : LoopState)
    (fp vid : String) (iid : JVal) (body : Json)
    (h : Effect.postItem iid body ∈ (tryBodyRaw env st fp vid).2) :
    ∃ d t, env.itemResp = some d ∧ body = dictSet d "Name" (JVal.str t) := by
  unfold tryBodyRaw at h
  repeat' split at h
  all_goals simp_all
  all_goals exact ⟨_, rfl⟩

/-- C2: every metadata record the loop posts back is the record returned by
the preceding fetch with only the `Name` field overwritten: every other field
reads back identically. -/
theorem c2_post_body_frame (env : FileEnv) (st : LoopState) (fp : String)
    (iid : JVal) (body : Json)
    (h : Effect.postItem iid body ∈ (processFile env st fp).2) :
    ∃ d, env.itemResp = some d ∧
      ∀ k, k ≠ "Name" → assocGet body k = assocGet d k := by
  have h2 : Effect.postItem iid body ∈ (tryBodyRaw env st fp (videoIdOf fp)).2 := by
    rcases processFile_snd env st fp with hs | hs <;> rw [hs] at h
    · simp at h
    · exact h
  obtain ⟨d, t, hd, hb⟩ := tryBodyRaw_postItem_shape env st fp _ iid body h2
  exact ⟨d, hd, fun k hk => hb ▸ assocGet_dictSet_ne d "Name" k (JVal.str t) hk⟩

theorem c2_witness :
    Effect.postItem (JVal.str "42")
        [("Id", JVal.str "42"), ("Name", JVal.str "T"), ("ParentId", JVal.str "7")]
      ∈ (processFile
          ⟨Except.ok (some "T - YouTube"),
           some (some [JVal.obj [("Id", JVal.str "42"), ("Name", JVal.str "old")]]),
           some [("Id", JVal.str "42"), ("Name", JVal.str "old"), ("ParentId", JVal.str "7")],
           some true, some true⟩ ⟨[], 0⟩ "/m/v.mp4").2 ∧
    ∃ d, (⟨Except.ok (some "T - YouTube"),
           some (some [JVal.obj [("Id", JVal.str "42"), ("Name", JVal.str "old")]]),
           some [("Id", JVal.str "42"), ("Name", JVal.str "old"), ("ParentId", JVal.str "7")],
           some true, some true⟩ : FileEnv).itemResp = some d ∧
      ∀ k, k ≠ "Name" →
        assocGet [("Id", JVal.str "42"), ("Name", JVal.str "T"),
                  ("ParentId", JVal.str "7")] k = assocGet d k := by
  have mp : Effect.postItem (JVal.str "42")
        [("Id", JVal.str "42"), ("Name", JVal.str "T"), ("ParentId", JVal.str "7")]
      ∈ (processFile
          ⟨Except.ok (some "T - YouTube"),
           some (some [JVal.obj [("Id", JVal.str "42"), ("Name", JVal.str "old")]]),
           some [("Id", JVal.str "42"), ("Name", JVal.str "old"), ("ParentId", JVal.str "7")],
           some true, some true⟩ ⟨[], 0⟩ "/m/v.mp4").2 := by
    show Effect.postItem (JVal.str "42")
        [("Id", JVal.str "42"), ("Name", JVal.str "T"), ("ParentId", JVal.str "7")]
      ∈ [Effect.fetchTitle "v", Effect.searchItems "v",
         Effect.fetchItem (JVal.str "42"),
         Effect.postItem (JVal.str "42")
           [("Id", JVal.str "42"), ("Name", JVal.str "T"), ("ParentId", JVal.str "7")],
         Effect.postRefresh (JVal.str "7")]
    simp
  exact ⟨mp, c2_post_body_frame _ ⟨[], 0⟩ "/m/v.mp4" _ _ mp⟩

theorem scanCycle_fst_append (envs : String → FileEnv) (st : LoopState)
    (l1 l2 : List String) :
    (scanCycle envs st (l1 ++ l2)).1
      = (scanCycle envs (scanCycle envs st l1).1 l2).1 := by
  induction l1 generalizing st with
  | nil => rfl
  | cons f rest ih =>
    simp only [List.cons_append, scanCycle]
    exact ih ((processFile (envs f) st f).1)

theorem processFile_fst_of_raise (env : FileEnv) (st : LoopState) (fp : String)
    (h : (tryBodyRaw env st fp (videoIdOf fp)).1 = .error ()) :
    (processFile env st fp).1 = st := by
  unfold processFile
  split
  · rfl
  · rcases he : tryBodyRaw env st fp (videoIdOf fp) with ⟨r1, effs⟩
    rw [he] at h
    cases r1
    · rfl
    · exact absurd h (by simp)

/-- C7: an exception raised while processing one file is absorbed at per-file
granularity: the scan of the remaining files proceeds, and the cycle ends in
the same state as if the raising file had not been in the sequence. -/
theorem c7_raise_does_not_halt_scan (envs : String → FileEnv) (st : LoopState)
    (fs1 fs2 : List String) (f : String)
    (h : (tryBodyRaw (envs f) (scanCycle envs st fs1).1 f (videoIdOf f)).1
          = .error ()) :
    (scanCycle envs st (fs1 ++ f :: fs2)).1
      = (scanCycle envs st (fs1 ++ fs2)).1 := by
  rw [scanCycle_fst_append, scanCycle_fst_append]
  simp only [scanCycle]
  rw [processFile_fst_of_raise _ _ _ h]

theorem c7_witness :
    (tryBodyRaw ((fun _ => (⟨Except.error (), none, none, none, none⟩ : FileEnv)) "/m/a.mp4")
        (scanCycle (fun _ => ⟨Except.error (), none, none, none, none⟩) ⟨[], 0⟩ []).1
        "/m/a.mp4" (videoIdOf "/m/a.mp4")).1 = Except.error () ∧
    (scanCycle (fun _ => ⟨Except.error (), none, none, none, none⟩) ⟨[], 0⟩
        ([] ++ "/m/a.mp4" :: ["/m/b.mp4"])).1
      = (scanCycle (fun _ => ⟨Except.error (), none, none, none, none⟩) ⟨[], 0⟩
        ([] ++ ["/m/b.mp4"])).1 :=
  ⟨rfl,
   c7_raise_does_not_halt_scan (fun _ => ⟨Except.error (), none, none, none, none⟩)
     ⟨[], 0⟩ [] ["/m/b.mp4"] "/m/a.mp4" rfl⟩

/-- C9: on the happy path with a successful metadata post, the file is
ledgered and counted regardless of `ParentId`, and a library-refresh call is
issued exactly when the fetched record's `ParentId` is present and truthy. -/
theorem c9_refresh_iff_truthy_parent (env : FileEnv) (st : LoopState)
    (fp t : String) (o d : Json) (iid nm : JVal) (rest : List JVal)
    (hAlready : already_updated st.ledger fp = false)
    (hPage : get_youtube_title env.page = Except.ok (some t))
    (hT : t ≠ "")
    (hSearch : env.searchResp = some (some (JVal.obj o :: rest)))
    (hId : assocGet o "Id" = some iid)
    (hNm : assocGet o "Name" = some nm)
    (hFetch : env.itemResp = some d)
    (hD : d.isEmpty = false)
    (hPost : env.postOk = some true) :
    (processFile env st fp).1.ledger
        = mark_as_updated st.ledger fp (videoIdOf fp) ∧
    (processFile env st fp).1.filesProcessed = st.filesProcessed + 1 ∧
    ((∃ pv, Effect.postRefresh pv ∈ (processFile env st fp).2) ↔
      truthyOpt (assocGet d "ParentId") = true) := by
  have hfr : assocGet (dictSet d "Name" (JVal.str t)) "ParentId"
      = assocGet d "ParentId" :=
    assocGet_dictSet_ne d "Name" "ParentId" (JVal.str t) (by decide)
  simp only [processFile, tryBodyRaw, hAlready, hPage, hSearch, hId, hNm,
    hFetch, hPost, itemsOf, hD, hfr, hT, Bool.false_eq_true, if_false,
    if_neg hT]
  cases hPar : assocGet d "ParentId" with
  | none => simp [truthyOpt]
  | some pv =>
    cases htr : truthy pv
    · simp [truthyOpt, htr]
    · simp [truthyOpt, htr]

theorem c9_witness :
    already_updated ([] : Ledger) "/m/v.mp4" = false ∧
    get_youtube_title (Except.ok (some "T - YouTube")) = Except.ok (some "T") ∧
    ("T" : String) ≠ "" ∧
    (⟨Except.ok (some "T - YouTube"),
      some (some [JVal.obj [("Id", JVal.str "42"), ("Name", JVal.str "old")]]),
      some [("Id", JVal.str "42"), ("Name", JVal.str "old"), ("ParentId", JVal.str "7")],
      some true, some true⟩ : FileEnv).searchResp
        = some (some (JVal.obj [("Id", JVal.str "42"), ("Name", JVal.str "old")] :: [])) ∧
    assocGet [("Id", JVal.str "42"), ("Name", JVal.str "old")] "Id"
        = some (JVal.str "42") ∧
    assocGet [("Id", JVal.str "42"), ("Name", JVal.str "old")] "Name"
        = some (JVal.str "old") ∧
    (⟨Except.ok (some "T - YouTube"),
      some (some [JVal.obj [("Id", JVal.str "42"), ("Name", JVal.str "old")]]),
      some [("Id", JVal.str "42"), ("Name", JVal.str "old"), ("ParentId", JVal.str "7")],
      some true, some true⟩ : FileEnv).itemResp
        = some [("Id", JVal.str "42"), ("Name", JVal.str "old"),
                ("ParentId", JVal.str "7")] ∧
    ([("Id", JVal.str "42"), ("Name", JVal.str "old"),
      ("ParentId", JVal.str "7")] : Json).isEmpty = false ∧
    (⟨Except.ok (some "T - YouTube"),
      some (some [JVal.obj [("Id", JVal.str "42"), ("Name", JVal.str "old")]]),
      some [("Id", JVal.str "42"), ("Name", JVal.str "old"), ("ParentId", JVal.str "7")],
      some true, some true⟩ : FileEnv).postOk = some true ∧
    ((processFile
        ⟨Except.ok (some "T - YouTube"),
         some (some [JVal.obj [("Id", JVal.str "42"), ("Name", JVal.str "old")]]),
         some [("Id", JVal.str "42"), ("Name", JVal.str "old"), ("ParentId", JVal.str "7")],
         some true, some true⟩ ⟨[], 0⟩ "/m/v.mp4").1.ledger
        = mark_as_updated [] "/m/v.mp4" (videoIdOf "/m/v.mp4") ∧
     (processFile
        ⟨Except.ok (some "T - YouTube"),
         some (some [JVal.obj [("Id", JVal.str "42"), ("Name", JVal.str "old")]]),
         some [("Id", JVal.str "42"), ("Name", JVal.str "old"), ("ParentId", JVal.str "7")],
         some true, some true⟩ ⟨[], 0⟩ "/m/v.mp4").1.filesProcessed = 0 + 1 ∧
     ((∃ pv, Effect.postRefresh pv ∈ (processFile
        ⟨Except.ok (some "T - YouTube"),
         some (some [JVal.obj [("Id", JVal.str "42"), ("Name", JVal.str "old")]]),
         some [("Id", JVal.str "42"), ("Name", JVal.str "old"), ("ParentId", JVal.str "7")],
         some true, some true⟩ ⟨[], 0⟩ "/m/v.mp4").2) ↔
       truthyOpt (assocGet [("Id", JVal.str "42"), ("Name", JVal.str "old"),
                            ("ParentId", JVal.str "7")] "ParentId") = true)) :=
  ⟨rfl, rfl, by decide, rfl, rfl, rfl, rfl, rfl, rfl,
   c9_refresh_iff_truthy_parent _ ⟨[], 0⟩ "/m/v.mp4" "T"
     [("Id", JVal.str "42"), ("Name", JVal.str "old")]
     [("Id", JVal.str "42"), ("Name", JVal.str "old"), ("ParentId", JVal.str "7")]
     (JVal.str "42") (JVal.str "old") []
     rfl rfl (by decide) rfl rfl rfl rfl rfl rfl⟩

theorem replaceAllFuel_of_not_contains (pat rep : List Char) (fuel : Nat) :
    ∀ s : List Char, containsSub pat s = false →
      replaceAllFuel pat rep fuel s = s := by
  induction fuel with
  | zero =>
    intro s _
    cases s <;> rfl
  | succ n ih =>
    intro s h
    cases s with
    | nil => rfl
    | cons c rest =>
      simp only [containsSub, Bool.or_eq_false_iff] at h
      obtain ⟨h1, h2⟩ := h
      simp [replaceAllFuel, h1, ih rest h2]

/-- C6 fails on the code at title `"A - YouTube B"`: Python `str.replace`
removes the non-trailing occurrence of the suffix, so the resolver returns
`"A B"`, while stripping only a trailing occurrence (the claim's reading)
would leave the title unchanged. -/
theorem c6_counterexample :
    get_youtube_title (Except.ok (some "A - YouTube B"))
      = Except.ok (some "A B") ∧
    stripTrailingSuffixSpec "A - YouTube B" = "A - YouTube B" ∧
    ("A B" : String) ≠ "A - YouTube B" :=
  ⟨rfl, rfl, by decide⟩

/-- C6 (amended): for every page whose `<title>` tag is found, the resolver
returns the title text with every left-to-right occurrence of `" - YouTube"`
removed, as Python `str.replace` does — not only a trailing one; a title in
which the suffix does not occur at all is returned unchanged. -/
theorem c6_amended_replace_all_occurrences (t : String) :
    get_youtube_title (Except.ok (some t))
      = Except.ok (some (pyReplace t " - YouTube" "")) ∧
    (containsSub " - YouTube".data t.data = false →
      pyReplace t " - YouTube" "" = t) := by
  obtain ⟨cs⟩ := t
  refine ⟨rfl, fun h => ?_⟩
  unfold pyReplace replaceAll
  rw [replaceAllFuel_of_not_contains _ _ _ _ h]

theorem c6_amended_witness :
    containsSub " - YouTube".data "A Title".data = false ∧
    pyReplace "A Title" " - YouTube" "" = "A Title" :=
  ⟨by decide, (c6_amended_replace_all_occurrences "A Title").2 (by decide)⟩
